import Mathlib

/-!
Verification of the pingo probing engine (github.com/mikaelmello/pingo).

This file shallowly embeds the parts of the Go code that the checked
properties are about:

* the byte codec helpers (`core` package, `utils.go`):
  `uint64ToBytes`, `bytesToUint64`, `uint16ToBytes`, `bytesToUint16`,
  `int64ToBytes`, `bytesToInt64`, `unixNanoToBytes`, `bytesToUnixNano`;
* the statistics aggregator (`core/statistics.go`, the revision with the
  `Statistics` interface backed by atomic `uint32`/`uint64` counters);
* the thread-safe reply map (`core/replymap.go`);
* the session logic (`core/session.go` / `core/icmp.go`, the revision whose
  `handleIntervalTimer` races a correlation slot against a timeout):
  `buildEchoRequest`, `sendEchoRequest`, `preProcessRawPacket`,
  `handleRawPacket`, `processRoundTrip`.

Machine integers are modelled as `Nat` (unsigned) or `Int` (signed) with
explicit reductions `% 2^w` exactly where the Go arithmetic can wrap:
`uint32` counters bumped through `atomic.AddUint32`, the `uint64` running
sums of the statistics, and the Go conversions `uint64(int64)` /
`int64(uint64)`.  `time.Time` / `time.Duration` values are modelled by their
`UnixNano` integer, which is exactly how the code itself serialises them.
Concurrency is modelled by a trace of atomically applied events whose state
updates are the ones the corresponding Go handlers perform.
-/

namespace Pingo

/-! ## Byte codec (core utils)

Go source (`utils.go`):

* `uint64ToBytes` / `uint16ToBytes` call `binary.BigEndian.PutUint64/16`;
* `bytesToUint64/16` call `binary.BigEndian.Uint64/16`;
* `int64ToBytes i = uint64ToBytes (uint64 i)` (two's-complement conversion);
* `bytesToInt64 b = int64 (bytesToUint64 b)`;
* `unixNanoToBytes t = int64ToBytes t.UnixNano()` and
  `bytesToUnixNano b = time.Unix(0, bytesToInt64 b)`; we carry the
  nanosecond count itself.

`binary.BigEndian.Uint64` reads exactly the first 8 bytes of its argument
(and panics on fewer); every call site below first checks that enough bytes
are present, so the `0` default of the short-list branch is never exercised
on the verified paths. -/

/-- Big-endian encoding of a `uint64` value into 8 bytes
(`binary.BigEndian.PutUint64`); `byte(v >> k)` truncates mod 256. -/
def uint64ToBytes (i : Nat) : List Nat :=
  [i / 2 ^ 56 % 256, i / 2 ^ 48 % 256, i / 2 ^ 40 % 256, i / 2 ^ 32 % 256,
   i / 2 ^ 24 % 256, i / 2 ^ 16 % 256, i / 2 ^ 8 % 256, i % 256]

/-- Big-endian decoding of the first 8 bytes (`binary.BigEndian.Uint64`). -/
def bytesToUint64 : List Nat → Nat
  | b0 :: b1 :: b2 :: b3 :: b4 :: b5 :: b6 :: b7 :: _ =>
      b0 * 2 ^ 56 + b1 * 2 ^ 48 + b2 * 2 ^ 40 + b3 * 2 ^ 32 +
      b4 * 2 ^ 24 + b5 * 2 ^ 16 + b6 * 2 ^ 8 + b7
  | _ => 0

/-- Big-endian encoding of a `uint16` value into 2 bytes
(`binary.BigEndian.PutUint16`). -/
def uint16ToBytes (i : Nat) : List Nat :=
  [i / 2 ^ 8 % 256, i % 256]

/-- Big-endian decoding of the first 2 bytes (`binary.BigEndian.Uint16`). -/
def bytesToUint16 : List Nat → Nat
  | b0 :: b1 :: _ => b0 * 2 ^ 8 + b1
  | _ => 0

/-- The Go conversion `uint64(i)` of an `int64` value: two's complement,
i.e. reduction of the integer mod `2^64`. -/
def toGoUInt64 (i : Int) : Nat := (i % (2 ^ 64 : Int)).toNat

/-- The Go conversion `int64(n)` of a `uint64` value: values at least
`2^63` re-enter as negatives. -/
def toGoInt64 (n : Nat) : Int :=
  if n < 2 ^ 63 then (n : Int) else (n : Int) - 2 ^ 64

/-- `int64ToBytes` — converts an `int64` to 8 big-endian bytes. -/
def int64ToBytes (i : Int) : List Nat := uint64ToBytes (toGoUInt64 i)

/-- `bytesToInt64` — converts 8 big-endian bytes to an `int64`. -/
def bytesToInt64 (b : List Nat) : Int := toGoInt64 (bytesToUint64 b)

/-- `unixNanoToBytes` — serialises a timestamp (kept as its `UnixNano`
nanosecond count) into 8 big-endian bytes. -/
def unixNanoToBytes (t : Int) : List Nat := int64ToBytes t

/-- `bytesToUnixNano` — deserialises 8 big-endian bytes back into a
timestamp (its `UnixNano` nanosecond count: `time.Unix(0, n)`). -/
def bytesToUnixNano (b : List Nat) : Int := bytesToInt64 b

/-! ## Statistics aggregator (core/statistics.go)

The `statistics` struct backs the `Statistics` interface.  Counters are
`uint32` fields bumped through `atomic.AddUint32` (wrap-around addition mod
`2^32`); the RTT running sums are `uint64` fields (wrap-around mod `2^64`).
The two `time.Time` fields `stTime` / `endTime` hold wall-clock instants;
only their `started` / `ended` initialisation flags are relevant to any
checked property, so the clock values themselves are not modelled. -/

/-- Wrap-around bound of Go `uint32` arithmetic. -/
def U32 : Nat := 2 ^ 32

/-- Wrap-around bound of Go `uint64` arithmetic. -/
def U64 : Nat := 2 ^ 64

/-- State of the `statistics` struct (`core/statistics.go`): the five
`uint32` counters, the RTT list and `uint64` RTT moments, and the
start/end initialisation flags. -/
structure StatisticsState where
  totalSent : Nat
  totalRecv : Nat
  totalTimedOut : Nat
  totalTTLExpired : Nat
  totalError : Nat
  rtts : List Nat
  rttsMin : Nat
  rttsMax : Nat
  rttsSum : Nat
  rttsSqSum : Nat
  started : Bool
  ended : Bool
  deriving Repr, DecidableEq

/-- `NewStatistics` — zero counters, empty RTT list, `rttsMin` seeded with
`math.MaxInt64`, flags cleared. -/
def NewStatistics : StatisticsState :=
  { totalSent := 0, totalRecv := 0, totalTimedOut := 0, totalTTLExpired := 0
    totalError := 0, rtts := [], rttsMax := 0, rttsMin := 2 ^ 63 - 1
    rttsSum := 0, rttsSqSum := 0, started := false, ended := false }

namespace StatisticsState

/-- `SessionStarted` — records the session start (clock value not modelled,
the `started` flag is set). -/
def SessionStarted (s : StatisticsState) : StatisticsState :=
  { s with started := true }

/-- `SessionEnded` — records the session end (clock value not modelled,
the `ended` flag is set). -/
def SessionEnded (s : StatisticsState) : StatisticsState :=
  { s with ended := true }

/-- `EchoRequested` — `atomic.AddUint32(&s.totalSent, 1)`. -/
def EchoRequested (s : StatisticsState) : StatisticsState :=
  { s with totalSent := (s.totalSent + 1) % U32 }

/-- `EchoReplied(rtt)` — bumps `TotalRecv` and folds `rtt` into the RTT
list, min, max, sum and sum of squares (`uint64` arithmetic). -/
def EchoReplied (s : StatisticsState) (rtt : Nat) : StatisticsState :=
  { s with totalRecv := (s.totalRecv + 1) % U32
           rtts := s.rtts ++ [rtt]
           rttsMax := max s.rttsMax rtt
           rttsMin := min s.rttsMin rtt
           rttsSum := (s.rttsSum + rtt) % U64
           rttsSqSum := (s.rttsSqSum + rtt * rtt % U64) % U64 }

/-- `EchoTimedOut` — `atomic.AddUint32(&s.totalTimedOut, 1)`. -/
def EchoTimedOut (s : StatisticsState) : StatisticsState :=
  { s with totalTimedOut := (s.totalTimedOut + 1) % U32 }

/-- `EchoTTLExpired` — `atomic.AddUint32(&s.totalTTLExpired, 1)`. -/
def EchoTTLExpired (s : StatisticsState) : StatisticsState :=
  { s with totalTTLExpired := (s.totalTTLExpired + 1) % U32 }

/-- `EchoRequestError` — `atomic.AddUint32(&s.totalError, 1)`. -/
def EchoRequestError (s : StatisticsState) : StatisticsState :=
  { s with totalError := (s.totalError + 1) % U32 }

/-- Go `uint32` subtraction `a - b` (wrap-around), for `a b < 2^32`. -/
def u32sub (a b : Nat) : Nat := (a + U32 - b) % U32

/-- `GetTotalSent`. -/
def GetTotalSent (s : StatisticsState) : Nat := s.totalSent

/-- `GetTotalRecv`. -/
def GetTotalRecv (s : StatisticsState) : Nat := s.totalRecv

/-- `GetTotalTimedOut`. -/
def GetTotalTimedOut (s : StatisticsState) : Nat := s.totalTimedOut

/-- `GetTotalTTLExpired`. -/
def GetTotalTTLExpired (s : StatisticsState) : Nat := s.totalTTLExpired

/-- `GetTotalErrors`. -/
def GetTotalErrors (s : StatisticsState) : Nat := s.totalError

/-- `GetTotalPending` — `sent - recv - timedOut - ttlExpired - errors` in
`uint32` arithmetic. -/
def GetTotalPending (s : StatisticsState) : Nat :=
  u32sub (u32sub (u32sub (u32sub s.GetTotalSent s.GetTotalRecv)
    s.GetTotalTimedOut) s.GetTotalTTLExpired) s.GetTotalErrors

/-- `GetPktLoss` — `1 - recv/sent` (0 when `sent = 0`).  The Go code
computes this in `float64`; both operands are `uint32` values, hence exact
in `float64`, and the result is modelled by the exact rational. -/
def GetPktLoss (s : StatisticsState) : ℚ :=
  if s.GetTotalSent = 0 then 0
  else 1 - (s.GetTotalRecv : ℚ) / (s.GetTotalSent : ℚ)

/-- `GetRTTMax`. -/
def GetRTTMax (s : StatisticsState) : Nat := s.rttsMax

/-- `GetRTTMin` — `min(s.rttsMax, s.rttsMin)` (so that the `MaxInt64` seed
reads back as 0 while no reply has been recorded). -/
def GetRTTMin (s : StatisticsState) : Nat := min s.rttsMax s.rttsMin

/-- `GetRTTAvg` — `rttsSum / len(rtts)` in `uint64` division, 0 when the
list is empty. -/
def GetRTTAvg (s : StatisticsState) : Nat :=
  if s.rtts.length = 0 then 0 else s.rttsSum / s.rtts.length

end StatisticsState

/-! ## Round trips (core/roundtrip.go) -/

/-- `RoundTripResult` — `Replied | TTLExpired | TimedOut`. -/
inductive RoundTripResult
  | Replied
  | TTLExpired
  | TimedOut
  deriving Repr, DecidableEq

/-- `RoundTrip` — the record produced for every resolved request attempt.
`Src` is the source IP of the reply (`nil` for timeouts), modelled as its
byte list; `Time` is the duration in nanoseconds. -/
structure RoundTrip where
  TTL : Int
  Seq : Nat
  Len : Int
  Src : Option (List Nat)
  Time : Int
  Res : RoundTripResult
  deriving Repr, DecidableEq

/-! ## Reply map (core/replymap.go)

`replyMap` maps a `uint16` sequence number to a `chan *RoundTrip` created
with `make(chan *RoundTrip, 1)`.  Channels are modelled in a side store
keyed by a freshness counter: a channel has its capacity, its buffered
items (`none` models a `nil` pointer sent on it) and a closed flag.
`GetOrCreate` inserts a fresh capacity-one channel when the key is absent,
`Get` is a plain lookup, and `Erase` closes and removes the channel when
the key is present and does nothing otherwise. -/

/-- State of a buffered channel: capacity, buffered items, closed flag. -/
structure ChanState where
  cap : Nat
  buf : List (Option RoundTrip)
  closed : Bool
  deriving Repr, DecidableEq

/-- State of the `replyMap` struct: the key-to-channel map (an association
list with map semantics), the channel store, and the id of the next channel
to be allocated. -/
structure ReplyMapState where
  allData : List (Nat × Nat)
  chans : List (Nat × ChanState)
  fresh : Nat
  deriving Repr, DecidableEq

/-- `newReplyMap` — an empty map. -/
def newReplyMap : ReplyMapState := { allData := [], chans := [], fresh := 0 }

namespace ReplyMapState

/-- `Get(key)` — the `(ch, ok)` map lookup; `none` models `ok = false`. -/
def Get (m : ReplyMapState) (key : Nat) : Option Nat :=
  m.allData.lookup key

/-- `GetOrCreate(key)` — returns the channel already stored under `key`,
or stores and returns a fresh `make(chan *RoundTrip, 1)`. -/
def GetOrCreate (m : ReplyMapState) (key : Nat) : Nat × ReplyMapState :=
  match m.allData.lookup key with
  | some ch => (ch, m)
  | none =>
      let ch := m.fresh
      (ch, { allData := (key, ch) :: m.allData
             chans := (ch, { cap := 1, buf := [], closed := false }) :: m.chans
             fresh := m.fresh + 1 })

/-- Marks channel `ch` closed in the channel store (`close(ch)`). -/
def closeChan (chans : List (Nat × ChanState)) (ch : Nat) :
    List (Nat × ChanState) :=
  chans.map fun p => if p.1 = ch then (p.1, { p.2 with closed := true }) else p

/-- `Erase(key)` — when `key` is present, closes its channel and deletes
the entry; otherwise leaves the map untouched. -/
def Erase (m : ReplyMapState) (key : Nat) : ReplyMapState :=
  match m.allData.lookup key with
  | none => m
  | some ch =>
      { allData := m.allData.filter fun p => p.1 ≠ key
        chans := closeChan m.chans ch
        fresh := m.fresh }

/-- Looks up a channel's state in the channel store. -/
def chanState (m : ReplyMapState) (ch : Nat) : Option ChanState :=
  m.chans.lookup ch

/-- Sends a round trip pointer on channel `ch` (`ch <- rt`): appends to the
buffer.  (A send that would block or hit a closed channel is outside the
sequentially verified paths below.) -/
def chanSend (m : ReplyMapState) (ch : Nat) (rt : Option RoundTrip) :
    ReplyMapState :=
  { m with chans := m.chans.map fun p =>
      if p.1 = ch then (p.1, { p.2 with buf := p.2.buf ++ [rt] }) else p }

end ReplyMapState

/-! ## ICMP messages

Parsed view of `icmp.Message` as the session code consumes it: the ICMP
type constants the code compares against, the code field, and the body,
which after `icmp.ParseMessage` is either an `*icmp.Echo`, an
`*icmp.TimeExceeded`, or some other concrete type. -/

/-- The ICMP type constants used by the session
(`ipv4.ICMPTypeEcho/EchoReply/TimeExceeded`,
`ipv6.ICMPTypeEchoRequest/EchoReply/TimeExceeded`, anything else). -/
inductive ICMPType
  | v4Echo
  | v4EchoReply
  | v4TimeExceeded
  | v6EchoRequest
  | v6EchoReply
  | v6TimeExceeded
  | otherType
  deriving Repr, DecidableEq

/-- `icmp.Echo` body: 16-bit `ID` and `Seq` fields plus the payload. -/
structure EchoBody where
  ID : Nat
  Seq : Nat
  Data : List Nat
  deriving Repr, DecidableEq

/-- The concrete body types the session's type switch distinguishes. -/
inductive MessageBody
  | echo (e : EchoBody)
  | timeExceeded (Data : List Nat)
  | otherBody
  deriving Repr, DecidableEq

/-- Parsed `icmp.Message` (`Typ` models the Go field `Type`, which is a
reserved word here). -/
structure Message where
  Typ : ICMPType
  Code : Nat
  Body : MessageBody
  deriving Repr, DecidableEq

/-- The `controlMessage` a read yields: TTL/hop limit and source address. -/
structure ControlMessage where
  TTL : Int
  Src : List Nat
  deriving Repr, DecidableEq

/-- The metadata of a `rawPacket` (`length` and control message); the raw
bytes themselves enter the verified paths only through their parse result,
which is passed along explicitly. -/
structure RawPacketMeta where
  length : Int
  cm : ControlMessage
  deriving Repr, DecidableEq

/-! ## Session (core/session.go, core/icmp.go)

Only the settings fields the embedded functions read are carried
(`IsPrivileged` for reply matching, `MaxCount` for the request limit);
the remaining configuration (TTL, interval, timeout, deadline, logging)
feeds timers and transports that stay at the model boundary. -/

/-- The session settings consumed by the embedded functions. -/
structure Settings where
  IsPrivileged : Bool
  MaxCount : Int
  deriving Repr, DecidableEq

/-- State of the `Session` struct: statistics, settings, the 16-bit `id`,
the 64-bit `bigID`, the last used sequence number, the reply map, the
address family flag and the lifecycle flags.  Round-trip observers
(`onRecv`) are opaque callbacks; the model tracks how many are registered
and which records get handed to them. -/
structure SessionState where
  stats : StatisticsState
  settings : Settings
  id : Nat
  bigID : Nat
  lastSeq : Nat
  rMap : ReplyMapState
  isIPv4 : Bool
  isStarted : Bool
  isFinished : Bool
  onRecvCount : Nat
  deriving Repr, DecidableEq

namespace SessionState

/-- `getICMPTypeEcho` — the echo-request type of the session's family. -/
def getICMPTypeEcho (s : SessionState) : ICMPType :=
  if s.isIPv4 then .v4Echo else .v6EchoRequest

/-- `buildEchoRequest` — builds the next ICMP echo request without
modifying the session: body `ID` is the session id, `Seq` is
`lastSequence + 1`, and the payload is the 8 `bigID` bytes followed by the
8 timestamp bytes.  Mirrors the Go method (a pointer receiver that only
reads fields), so the session component of the result is the input
session. -/
def buildEchoRequest (s : SessionState) (now : Int) : SessionState × Message :=
  (s, { Typ := s.getICMPTypeEcho
        Code := 0
        Body := .echo { ID := s.id
                        Seq := s.lastSeq + 1
                        Data := uint64ToBytes s.bigID ++ unixNanoToBytes now } })

/-- `sendEchoRequest(conn)` — builds and transmits the next echo request;
`sendOk` stands for the success of `conn.WriteTo` (`Marshal` of the
freshly built echo message always succeeds, so its early-error return is
never taken).  Whatever the write outcome, the code then runs
`s.Stats.EchoRequested()` and
`s.lastSequence = (s.lastSequence + 1) & 0xffff` ("request failing or not,
we must update these values") and only afterwards reports the error.
The boolean in the result is true when an error is returned. -/
def sendEchoRequest (s : SessionState) (now : Int) (sendOk : Bool) :
    SessionState × Bool :=
  let s1 := (s.buildEchoRequest now).1
  let s2 := { s1 with stats := s1.stats.EchoRequested
                      lastSeq := (s1.lastSeq + 1) &&& 0xffff }
  (s2, !sendOk)

/-- The request-issuing prefix of `handleIntervalTimer` (the revision that
races a correlation slot against a timeout): under `reqMutex`, pick
`selectedSeq = lastSeq + 1`, run `EchoRequested`, and advance
`lastSeq = (lastSeq + 1) & 0xffff`.  Returns the updated session and the
selected sequence number. -/
def intervalSendStep (s : SessionState) : SessionState × Nat :=
  let selectedSeq := s.lastSeq + 1
  let s1 := { s with stats := s.stats.EchoRequested
                     lastSeq := (s.lastSeq + 1) &&& 0xffff }
  (s1, selectedSeq)

/-- `preProcessRawPacket` — classifies a parsed inbound packet.  Returns
`.error` for malformed packets, `.ok none` for packets that are ignored or
do not match this session, and `.ok (some rt)` for a matched reply
(`Replied`) or time-exceeded notification (`TTLExpired`).  `parsed` is the
outcome of `icmp.ParseMessage` on the raw bytes; `receivedTstp` is the
`time.Now()` taken on entry, as a nanosecond count. -/
def preProcessRawPacket (s : SessionState) (meta : RawPacketMeta)
    (parsed : Except String Message) (receivedTstp : Int) :
    Except String (Option RoundTrip) :=
  match parsed with
  | .error e => .error ("error parsing ICMP message: " ++ e)
  | .ok m =>
    let isEchoReply :=
      m.Code = 0 ∧ (m.Typ = .v4EchoReply ∨ m.Typ = .v6EchoReply)
    let isTimeExceeded :=
      m.Code = 0 ∧ (m.Typ = .v4TimeExceeded ∨ m.Typ = .v6TimeExceeded)
    if ¬isEchoReply ∧ ¬isTimeExceeded then
      .ok none
    else
      match m.Body with
      | .timeExceeded data =>
          if s.isIPv4 ∧ data.length < 28 then
            .error "received TimeExceeded does not minimum length that we need"
          else if ¬s.isIPv4 ∧ data.length < 48 then
            .error "received TimeExceeded does not minimum length that we need"
          else
            let origdgram :=
              if s.isIPv4 then (data.drop 20).take 8 else (data.drop 40).take 8
            let echoID := bytesToUint16 ((origdgram.drop 4).take 2)
            let echoSeq := bytesToUint16 (origdgram.drop 6)
            if echoID ≠ s.id then
              .ok none
            else
              .ok (some { TTL := meta.cm.TTL, Src := some meta.cm.Src
                          Len := meta.length, Seq := echoSeq
                          Res := .TTLExpired, Time := 0 })
      | .echo body =>
          if s.settings.IsPrivileged ∧ body.ID ≠ s.id then
            .ok none
          else if body.Data.length < 16 then
            .error "missing data"
          else
            let bigID := bytesToUint64 (body.Data.take 8)
            let tstp := bytesToUnixNano (body.Data.drop 8)
            if bigID ≠ s.bigID then
              .ok none
            else
              .ok (some { TTL := meta.cm.TTL, Src := some meta.cm.Src
                          Len := meta.length, Seq := body.Seq
                          Res := .Replied, Time := receivedTstp - tstp })
      | .otherBody => .error "invalid body type"

/-- `handleRawPacket` — pre-processes an inbound packet; on a parse error
or a non-match it returns with the session untouched, otherwise it looks
up the correlation slot for `uint16(rt.Seq)` and, when the slot still
exists, delivers the record into it (a stale reply whose slot was already
erased is discarded). -/
def handleRawPacket (s : SessionState) (meta : RawPacketMeta)
    (parsed : Except String Message) (receivedTstp : Int) : SessionState :=
  match s.preProcessRawPacket meta parsed receivedTstp with
  | .error _ => s
  | .ok none => s
  | .ok (some rt) =>
      match s.rMap.Get (rt.Seq % 65536) with
      | none => s
      | some ch => { s with rMap := s.rMap.chanSend ch (some rt) }

/-- `processRoundTrip` — drops the record when the session is already
finished; otherwise records a `Replied` result into the statistics via
`EchoReplied(uint64(rt.Time.Nanoseconds()))` (no statistics call is made
for `TimedOut` or `TTLExpired`) and then invokes every registered `onRecv`
handler with the record.  The returned list holds the records handed to
the handlers, in invocation order. -/
def processRoundTrip (s : SessionState) (rt : RoundTrip) :
    SessionState × List RoundTrip :=
  if s.isFinished then (s, [])
  else
    let s1 :=
      if rt.Res = .Replied then
        { s with stats := s.stats.EchoReplied (toGoUInt64 rt.Time) }
      else s
    (s1, List.replicate s.onRecvCount rt)

/-- `buildTimedOutRT(seq, timeout)` — the record produced when the
per-request timeout fires first. -/
def buildTimedOutRT (seq : Nat) (timeout : Int) : RoundTrip :=
  { TTL := 0, Time := timeout, Len := 0, Seq := seq, Src := none
    Res := .TimedOut }

end SessionState

/-! ## Engine event traces

The counters of a running session change at a handful of well-defined
program points, each of which the Go code executes atomically with respect
to the statistics (every counter is touched through one atomic or
mutex-protected operation):

* `handleIntervalTimer`, request issue: `Stats.EchoRequested()` and, on a
  `sendEchoRequest` error, `Stats.EchoRequestError()`; on success a
  correlation slot is reserved via `rMap.GetOrCreate` and erased once the
  slot/timeout race resolves, so each successful send owns exactly one
  outstanding slot and resolves it exactly once;
* the slot/timeout race resolution: a `nil` pointer out of a closed slot
  runs `Stats.EchoRequestError()`; a delivered record or a synthesised
  timeout record goes to `processRoundTrip`, which (unless the session has
  already finished) runs `Stats.EchoReplied` for `Replied` results and
  makes no statistics call for `TimedOut` / `TTLExpired`;
* `handleFinishRequest`: sets `isFinished` and runs the `onFinish`
  callbacks, `finishStatsCb` among them (`Stats.SessionEnded()`).

`EngineEvent` names these atomic points; `engineStep` applies the exact
statistics updates of each, with `pendingSlots` counting the outstanding
(sent but unresolved) requests.  The trace set deliberately places no
ordering restrictions beyond those the updates themselves enforce, so it
covers every counter state a session run can pass through (a sound
over-approximation for the invariants proved below), while the concrete
traces evaluated below correspond to real executions. -/

/-- How one outstanding request's slot/timeout race resolves. -/
inductive Resolution
  | replied (rtt : Nat)
  | ttlExpired
  | timedOut
  | nilRT
  deriving Repr, DecidableEq

/-- One atomically applied engine event (see the section comment). -/
inductive EngineEvent
  | request (sendOk : Bool)
  | resolve (r : Resolution)
  | finish
  deriving Repr, DecidableEq

/-- Counter-relevant state of a running session: the statistics, the number
of outstanding correlation slots, and the finished flag. -/
structure EngineState where
  stats : StatisticsState
  pendingSlots : Nat
  finished : Bool
  deriving Repr, DecidableEq

/-- The engine state of a freshly constructed session (`NewSession`). -/
def EngineState.init : EngineState :=
  { stats := NewStatistics, pendingSlots := 0, finished := false }

/-- Applies one engine event; the statistics updates are the ones the
corresponding handlers perform. -/
def engineStep (st : EngineState) (e : EngineEvent) : EngineState :=
  match e with
  | .request sendOk =>
      let stats := st.stats.EchoRequested
      if sendOk then
        { st with stats := stats, pendingSlots := st.pendingSlots + 1 }
      else
        { st with stats := stats.EchoRequestError }
  | .resolve r =>
      if st.pendingSlots = 0 then st
      else
        let st1 := { st with pendingSlots := st.pendingSlots - 1 }
        match r with
        | .nilRT => { st1 with stats := st1.stats.EchoRequestError }
        | .replied rtt =>
            if st1.finished then st1
            else { st1 with stats := st1.stats.EchoReplied rtt }
        | .ttlExpired => st1
        | .timedOut => st1
  | .finish =>
      { st with finished := true, stats := st.stats.SessionEnded }

/-- Runs a trace of engine events from the initial state. -/
def engineRun (t : List EngineEvent) : EngineState :=
  t.foldl engineStep EngineState.init

/-- Number of `request` events in a trace (each bumps `totalSent` once). -/
def reqCount (t : List EngineEvent) : Nat :=
  t.countP fun e => match e with | .request _ => true | _ => false

/-- Number of `request` events contributed by a single event. -/
def reqOf : EngineEvent → Nat
  | .request _ => 1
  | _ => 0

/-- Sum of the outcome counters and the outstanding-slot count; the
reachability invariant below bounds it by `totalSent`. -/
def EngineState.countSum (st : EngineState) : Nat :=
  st.stats.totalRecv + st.stats.totalTimedOut + st.stats.totalTTLExpired +
    st.stats.totalError + st.pendingSlots

/-- The sequence number carried by an echo message's body (an observation
helper used only to state properties; 0 for non-echo bodies). -/
def msgSeq (m : Message) : Nat :=
  match m.Body with
  | .echo e => e.Seq
  | _ => 0

/-- Sample settings: an unprivileged session with no request limit (the
`-1` default). -/
def sampleSettings : Settings := { IsPrivileged := false, MaxCount := -1 }

/-- Sample running IPv4 session with fresh statistics, an empty reply map
and one registered round-trip observer, used to evaluate the session
functions at concrete inputs. -/
def sampleSession : SessionState :=
  { stats := NewStatistics, settings := sampleSettings, id := 17, bigID := 99
    lastSeq := 0, rMap := newReplyMap, isIPv4 := true, isStarted := true
    isFinished := false, onRecvCount := 1 }

/-- Sample raw-packet metadata (24 bytes read, TTL 64, loopback source). -/
def sampleMeta : RawPacketMeta :=
  { length := 24, cm := { TTL := 64, Src := [127, 0, 0, 1] } }

/-- A timed-out round trip for sequence 1 with the default 10 s timeout. -/
def sampleTimedOutRT : RoundTrip := SessionState.buildTimedOutRT 1 10000000000

/-- A TTL-expired round trip as produced for a TimeExceeded message. -/
def sampleTTLExpiredRT : RoundTrip :=
  { TTL := 3, Seq := 1, Len := 48, Src := some [10, 0, 0, 1], Time := 0
    Res := .TTLExpired }

/-- A successful round trip with a 5 ms RTT. -/
def sampleRepliedRT : RoundTrip :=
  { TTL := 64, Seq := 1, Len := 24, Src := some [127, 0, 0, 1]
    Time := 5000000, Res := .Replied }

/-- The statistics state after a sequence of successful replies has been
recorded through `EchoReplied` (the only method that touches the RTT
fields) into a freshly initialised aggregator. -/
def statsAfterReplies (l : List Nat) : StatisticsState :=
  l.foldl StatisticsState.EchoReplied NewStatistics

/-! ## Theorems -/

theorem bytesToUint64_uint64ToBytes (i : Nat) :
    bytesToUint64 (uint64ToBytes i) = i % 2 ^ 64 := by
  simp only [uint64ToBytes, bytesToUint64]
  omega

theorem bytesToUint64_uint64ToBytes_of_lt {i : Nat} (h : i < 2 ^ 64) :
    bytesToUint64 (uint64ToBytes i) = i := by
  rw [bytesToUint64_uint64ToBytes, Nat.mod_eq_of_lt h]

theorem toGoUInt64_lt (i : Int) : toGoUInt64 i < 2 ^ 64 := by
  unfold toGoUInt64
  omega

theorem toGoInt64_toGoUInt64 {i : Int} (h1 : -(2 ^ 63) ≤ i) (h2 : i < 2 ^ 63) :
    toGoInt64 (toGoUInt64 i) = i := by
  unfold toGoInt64 toGoUInt64
  split <;> omega

theorem bytesToInt64_int64ToBytes {i : Int} (h1 : -(2 ^ 63) ≤ i)
    (h2 : i < 2 ^ 63) : bytesToInt64 (int64ToBytes i) = i := by
  unfold bytesToInt64 int64ToBytes
  rw [bytesToUint64_uint64ToBytes_of_lt (toGoUInt64_lt i)]
  exact toGoInt64_toGoUInt64 h1 h2

theorem bytesToUnixNano_unixNanoToBytes {t : Int} (h1 : -(2 ^ 63) ≤ t)
    (h2 : t < 2 ^ 63) : bytesToUnixNano (unixNanoToBytes t) = t :=
  bytesToInt64_int64ToBytes h1 h2

theorem uint64ToBytes_length (i : Nat) : (uint64ToBytes i).length = 8 := rfl

theorem U32_eq : U32 = 4294967296 := by norm_num [U32]

theorem engineStep_inv {st : EngineState} (e : EngineEvent)
    (hinv : st.countSum ≤ st.stats.totalSent)
    (hb : st.stats.totalSent + reqOf e < U32) :
    (engineStep st e).countSum ≤ (engineStep st e).stats.totalSent ∧
    (engineStep st e).stats.totalSent = st.stats.totalSent + reqOf e := by
  simp only [EngineState.countSum] at hinv
  rw [U32_eq] at hb
  cases e with
  | request sendOk =>
      simp only [reqOf] at hb
      cases sendOk <;>
        simp [engineStep, EngineState.countSum, reqOf,
          StatisticsState.EchoRequested, StatisticsState.EchoRequestError,
          U32_eq] <;>
        omega
  | resolve r =>
      simp only [reqOf] at hb
      by_cases hp : st.pendingSlots = 0
      · simp [engineStep, hp, EngineState.countSum, reqOf]
        omega
      · cases r with
        | replied rtt =>
            by_cases hf : st.finished <;>
              simp [engineStep, hp, hf, EngineState.countSum, reqOf,
                StatisticsState.EchoReplied, U32_eq] <;>
              omega
        | ttlExpired =>
            simp [engineStep, hp, EngineState.countSum, reqOf]
            omega
        | timedOut =>
            simp [engineStep, hp, EngineState.countSum, reqOf]
            omega
        | nilRT =>
            simp [engineStep, hp, EngineState.countSum, reqOf,
              StatisticsState.EchoRequestError, U32_eq]
            omega
  | finish =>
      simp [engineStep, EngineState.countSum, reqOf,
        StatisticsState.SessionEnded]
      omega

theorem reqCount_cons (e : EngineEvent) (t : List EngineEvent) :
    reqCount (e :: t) = reqOf e + reqCount t := by
  cases e <;> simp [reqCount, reqOf, List.countP_cons, Nat.add_comm]

theorem engineFold_inv :
    ∀ (t : List EngineEvent) (st : EngineState),
      st.countSum ≤ st.stats.totalSent →
      st.stats.totalSent + reqCount t < U32 →
      (t.foldl engineStep st).countSum ≤
          (t.foldl engineStep st).stats.totalSent ∧
        (t.foldl engineStep st).stats.totalSent =
          st.stats.totalSent + reqCount t
  | [], st, hinv, _ => ⟨hinv, by simp [reqCount]⟩
  | e :: t, st, hinv, hb => by
      rw [reqCount_cons] at hb
      have hstep := engineStep_inv e hinv (by omega)
      have hrec := engineFold_inv t (engineStep st e) hstep.1
        (by rw [hstep.2]; omega)
      refine ⟨by simpa using hrec.1, ?_⟩
      rw [List.foldl_cons, hrec.2, hstep.2, reqCount_cons]
      omega

/-- Reachability invariant of the statistics counters: along any engine
trace (shorter than the `uint32` wrap-around bound), the received,
timed-out, TTL-expired and errored counters plus the outstanding-slot count
never exceed the sent counter. -/
theorem engineRun_inv (t : List EngineEvent) (h : reqCount t < U32) :
    (engineRun t).countSum ≤ (engineRun t).stats.totalSent :=
  (engineFold_inv t EngineState.init (by simp [EngineState.countSum,
    EngineState.init, NewStatistics]) (by simpa [EngineState.init,
    NewStatistics] using h)).1

/-- C3: the claim states that `sent ≥ received + timedOut + ttlExpired +
errored` always holds, with equality — equivalently `GetTotalPending = 0`
— once the session is `Finished`.  The inequality does hold over every
reachable state (`engineRun_inv`), but equality at `Finished` fails on the
code: in the run that issues one echo request whose slot/timeout race
resolves as a timeout and then finishes (e.g. `maxCount = 1` against a
silent target), `processRoundTrip` makes no statistics call for the
`TimedOut` record — `Statistics.EchoTimedOut`, documented as "supposed to
be called when an echo request timed out", has no caller anywhere — so at
`Finished` the sent counter is 1 while all outcome counters are 0 and
`GetTotalPending` reports 1, not 0. -/
theorem C3_pending_nonzero_at_finished :
    (engineRun [.request true, .resolve .timedOut, .finish]).finished = true ∧
    (engineRun [.request true, .resolve .timedOut,
      .finish]).stats.GetTotalSent = 1 ∧
    (engineRun [.request true, .resolve .timedOut,
      .finish]).stats.GetTotalRecv = 0 ∧
    (engineRun [.request true, .resolve .timedOut,
      .finish]).stats.GetTotalTimedOut = 0 ∧
    (engineRun [.request true, .resolve .timedOut,
      .finish]).stats.GetTotalTTLExpired = 0 ∧
    (engineRun [.request true, .resolve .timedOut,
      .finish]).stats.GetTotalErrors = 0 ∧
    (engineRun [.request true, .resolve .timedOut,
      .finish]).stats.GetTotalPending = 1 := by
  decide

/-- C7: over every reachable statistics state (any engine trace below the
`uint32` wrap-around bound), the packet-loss rate `GetPktLoss` lies in
`[0, 1]`, and it is exactly 0 when the sent counter is 0.  The Go code
computes `1 - recv/sent` in `float64`; both counters are `uint32` values,
hence exactly representable, and the result is modelled by the exact
rational. -/
theorem C7_pktLoss_bounds (t : List EngineEvent) (h : reqCount t < U32) :
    0 ≤ (engineRun t).stats.GetPktLoss ∧
    (engineRun t).stats.GetPktLoss ≤ 1 ∧
    ((engineRun t).stats.GetTotalSent = 0 →
      (engineRun t).stats.GetPktLoss = 0) := by
  have hinv := engineRun_inv t h
  simp only [EngineState.countSum] at hinv
  have hrs : (engineRun t).stats.totalRecv ≤ (engineRun t).stats.totalSent :=
    by omega
  simp only [StatisticsState.GetPktLoss, StatisticsState.GetTotalSent,
    StatisticsState.GetTotalRecv]
  by_cases hs : (engineRun t).stats.totalSent = 0
  · simp [hs]
  · have hpos : (0 : ℚ) < ((engineRun t).stats.totalSent : ℚ) := by
      exact_mod_cast Nat.pos_of_ne_zero hs
    have hle : ((engineRun t).stats.totalRecv : ℚ) ≤
        ((engineRun t).stats.totalSent : ℚ) := by exact_mod_cast hrs
    have hdiv1 : ((engineRun t).stats.totalRecv : ℚ) /
        ((engineRun t).stats.totalSent : ℚ) ≤ 1 := (div_le_one hpos).mpr hle
    have hdiv0 : (0 : ℚ) ≤ ((engineRun t).stats.totalRecv : ℚ) /
        ((engineRun t).stats.totalSent : ℚ) :=
      div_nonneg (by positivity) (le_of_lt hpos)
    refine ⟨by simp [hs]; linarith, by simp [hs]; linarith, fun h0 => ?_⟩
    exact absurd h0 hs

/-- Witness for `C7_pktLoss_bounds`: the empty trace (and, through the
theorem applied to it, the freshly initialised statistics). -/
theorem C7_pktLoss_bounds_witness :
    reqCount [] < U32 ∧
    (0 ≤ (engineRun []).stats.GetPktLoss ∧
      (engineRun []).stats.GetPktLoss ≤ 1 ∧
      ((engineRun []).stats.GetTotalSent = 0 →
        (engineRun []).stats.GetPktLoss = 0)) :=
  ⟨by norm_num [reqCount, U32], C7_pktLoss_bounds []
    (by norm_num [reqCount, U32])⟩

theorem lookup_filter_self (key : Nat) :
    ∀ l : List (Nat × Nat), (l.filter fun p => p.1 ≠ key).lookup key = none
  | [] => rfl
  | (a, b) :: l => by
      by_cases h : a = key
      · simpa [List.filter_cons, h] using lookup_filter_self key l
      · have hne : (key == a) = false := by
          simp [Ne.symm h]
        simp [List.filter_cons, h, List.lookup, hne, lookup_filter_self key l]
        exact fun x y _ hxk hka => hxk hka.symm

theorem Get_Erase_eq_none (m : ReplyMapState) (key : Nat) :
    (m.Erase key).Get key = none := by
  unfold ReplyMapState.Erase ReplyMapState.Get
  cases hm : m.allData.lookup key with
  | none => simpa using hm
  | some ch => simpa using lookup_filter_self key m.allData

theorem Erase_of_lookup_none (m : ReplyMapState) (key : Nat)
    (h : m.allData.lookup key = none) : m.Erase key = m := by
  simp [ReplyMapState.Erase, h]

/-- C5: correlation-table operations.  Two consecutive `GetOrCreate(key)`
calls with no intervening `Erase(key)` return the same delivery slot and
leave the state of the second call equal to that of the first; when the
key is absent the slot is freshly created as a buffered channel of
capacity one (empty, not closed), and when it is present the existing
slot is returned with the map unchanged; and after `Erase(key)` a
subsequent `Get(key)` reports `found = false`. -/
theorem C5_correlation_slots (m : ReplyMapState) (key : Nat) :
    ((m.GetOrCreate key).2.GetOrCreate key = m.GetOrCreate key) ∧
    (m.Get key = none →
      (m.GetOrCreate key).2.chanState (m.GetOrCreate key).1 =
        some { cap := 1, buf := [], closed := false }) ∧
    (∀ ch, m.Get key = some ch → m.GetOrCreate key = (ch, m)) ∧
    ((m.Erase key).Get key = none) := by
  refine ⟨?_, ?_, ?_, Get_Erase_eq_none m key⟩
  · cases hm : m.allData.lookup key with
    | some ch => simp [ReplyMapState.GetOrCreate, hm]
    | none => simp [ReplyMapState.GetOrCreate, hm, List.lookup]
  · intro h
    simp only [ReplyMapState.Get] at h
    simp [ReplyMapState.GetOrCreate, h, ReplyMapState.chanState, List.lookup]
  · intro ch h
    simp only [ReplyMapState.Get] at h
    simp [ReplyMapState.GetOrCreate, h]

/-- Witness for `C5_correlation_slots` at the empty map and key 3, both for
the absent-key branch (fresh capacity-one slot, erase-then-get misses) and,
through the state after the first call, for the present-key branch (the
existing slot is returned and the map is unchanged). -/
theorem C5_correlation_slots_witness :
    (newReplyMap.Get 3 = none) ∧
    ((newReplyMap.GetOrCreate 3).2.GetOrCreate 3 = newReplyMap.GetOrCreate 3) ∧
    ((newReplyMap.GetOrCreate 3).2.chanState (newReplyMap.GetOrCreate 3).1 =
      some { cap := 1, buf := [], closed := false }) ∧
    ((newReplyMap.GetOrCreate 3).2.Get 3 = some 0 ∧
      (newReplyMap.GetOrCreate 3).2.GetOrCreate 3 =
        (0, (newReplyMap.GetOrCreate 3).2)) ∧
    ((newReplyMap.Erase 3).Get 3 = none) :=
  ⟨rfl, (C5_correlation_slots newReplyMap 3).1,
    (C5_correlation_slots newReplyMap 3).2.1 rfl,
    ⟨rfl, (C5_correlation_slots (newReplyMap.GetOrCreate 3).2 3).2.2.1 0 rfl⟩,
    (C5_correlation_slots newReplyMap 3).2.2.2⟩

/-- C10: erasing a sequence number with no registered delivery slot leaves
the reply map (and its channel store) unchanged, and `Erase` is therefore
idempotent: a second `Erase(key)` immediately after a first one is a
no-op, so the loser of the timeout-versus-delivery race cannot disturb the
table — or panic on a double `close` — by erasing again. -/
theorem C10_erase_idempotent (m : ReplyMapState) (key : Nat) :
    (m.Get key = none → m.Erase key = m) ∧
    (m.Erase key).Erase key = m.Erase key := by
  constructor
  · intro h
    simp only [ReplyMapState.Get] at h
    exact Erase_of_lookup_none m key h
  · have h := Get_Erase_eq_none m key
    simp only [ReplyMapState.Get] at h
    exact Erase_of_lookup_none (m.Erase key) key h

/-- Witness for `C10_erase_idempotent`: erasing the absent key 3 from the
empty map is a no-op, and a double erase after a create equals the single
erase. -/
theorem C10_erase_idempotent_witness :
    (newReplyMap.Get 3 = none) ∧
    (newReplyMap.Erase 3 = newReplyMap) ∧
    (((newReplyMap.GetOrCreate 3).2.Erase 3).Erase 3 =
      (newReplyMap.GetOrCreate 3).2.Erase 3) :=
  ⟨rfl, (C10_erase_idempotent newReplyMap 3).1 rfl,
    (C10_erase_idempotent (newReplyMap.GetOrCreate 3).2 3).2⟩

/-- C1: the claim states that every round trip processed by the session
updates the matching statistics counter — received for `Replied`,
timed-out for `TimedOut`, TTL-expired for `TTLExpired` — and is broadcast
to the registered receive-observers.  The broadcast does happen, and a
`Replied` record does increment the received counter, but
`processRoundTrip` makes no statistics call at all for `TimedOut` and
`TTLExpired` records — `Statistics.EchoTimedOut` and
`Statistics.EchoTTLExpired` have no caller anywhere in the code — so
processing such records leaves every counter unchanged, as this
evaluation at concrete records shows. -/
theorem C1_roundTrip_recording :
    ((sampleSession.processRoundTrip sampleTimedOutRT).2 =
      [sampleTimedOutRT]) ∧
    ((sampleSession.processRoundTrip sampleTTLExpiredRT).2 =
      [sampleTTLExpiredRT]) ∧
    ((sampleSession.processRoundTrip sampleRepliedRT).2 =
      [sampleRepliedRT]) ∧
    ((sampleSession.processRoundTrip sampleRepliedRT).1.stats.GetTotalRecv =
      1) ∧
    ((sampleSession.processRoundTrip sampleTimedOutRT).1.stats =
      sampleSession.stats) ∧
    ((sampleSession.processRoundTrip sampleTTLExpiredRT).1.stats =
      sampleSession.stats) ∧
    ((sampleSession.processRoundTrip
      sampleTimedOutRT).1.stats.GetTotalTimedOut = 0) ∧
    ((sampleSession.processRoundTrip
      sampleTTLExpiredRT).1.stats.GetTotalTTLExpired = 0) := by
  decide

/-- C8: on every send attempt, whether the transmit succeeds or fails, the
sequence counter advances by exactly one modulo 65536
(`lastSeq = (lastSeq + 1) & 0xffff`) and the sent counter by one, so the
sequence always stays in 0..65535.  Proved both for the request step of
`handleIntervalTimer` and for `sendEchoRequest`, whose updates run
regardless of the transmit outcome ("request failing or not, we must
update these values"); the hypothesis keeps the `uint32` sent counter
below its wrap-around point. -/
theorem C8_sequence_wraparound (s : SessionState) (now : Int) (sendOk : Bool)
    (hsent : s.stats.totalSent + 1 < U32) :
    (s.intervalSendStep.1.lastSeq = (s.lastSeq + 1) % 65536) ∧
    (s.intervalSendStep.1.lastSeq < 65536) ∧
    (s.intervalSendStep.1.stats.totalSent = s.stats.totalSent + 1) ∧
    ((s.sendEchoRequest now sendOk).1.lastSeq = (s.lastSeq + 1) % 65536) ∧
    ((s.sendEchoRequest now sendOk).1.lastSeq < 65536) ∧
    ((s.sendEchoRequest now sendOk).1.stats.totalSent =
      s.stats.totalSent + 1) ∧
    ((s.sendEchoRequest now true).1 = (s.sendEchoRequest now false).1) := by
  have hmask : ∀ x : Nat, x &&& 65535 = x % 65536 := by
    intro x
    have h16 : (65535 : Nat) = 2 ^ 16 - 1 := by norm_num
    have h65536 : (65536 : Nat) = 2 ^ 16 := by norm_num
    rw [h16, h65536, Nat.and_pow_two_sub_one_eq_mod]
  rw [U32_eq] at hsent
  refine ⟨?_, ?_, ?_, ?_, ?_, ?_, rfl⟩
  · simp [SessionState.intervalSendStep, hmask]
  · simp [SessionState.intervalSendStep, hmask]
    exact Nat.mod_lt _ (by norm_num)
  · simp [SessionState.intervalSendStep, StatisticsState.EchoRequested,
      U32_eq]
    omega
  · simp [SessionState.sendEchoRequest, SessionState.buildEchoRequest, hmask]
  · simp [SessionState.sendEchoRequest, SessionState.buildEchoRequest, hmask]
    exact Nat.mod_lt _ (by norm_num)
  · simp [SessionState.sendEchoRequest, SessionState.buildEchoRequest,
      StatisticsState.EchoRequested, U32_eq]
    omega

/-- Witness for `C8_sequence_wraparound` at the sample session. -/
theorem C8_sequence_wraparound_witness :
    sampleSession.stats.totalSent + 1 < U32 ∧
    sampleSession.intervalSendStep.1.lastSeq =
      (sampleSession.lastSeq + 1) % 65536 ∧
    (sampleSession.sendEchoRequest 0 true).1.stats.totalSent =
      sampleSession.stats.totalSent + 1 := by
  have hp : sampleSession.stats.totalSent + 1 < U32 := by decide
  exact ⟨hp, (C8_sequence_wraparound sampleSession 0 true hp).1,
    (C8_sequence_wraparound sampleSession 0 true hp).2.2.2.2.2.1⟩

/-- C9: `buildEchoRequest` builds the outbound echo message without
modifying any session field — the session it hands back is the input
session, so `lastSequence`, `id`, `bigID` and all statistics counters are
unchanged, the sample message handed to on-start observers consumes no
sequence number, and two consecutive calls with no intervening send carry
the same sequence number (`lastSequence + 1`). -/
theorem C9_buildEchoRequest_frame (s : SessionState) (now now2 : Int) :
    ((s.buildEchoRequest now).1 = s) ∧
    ((s.buildEchoRequest now).1.lastSeq = s.lastSeq) ∧
    ((s.buildEchoRequest now).1.id = s.id) ∧
    ((s.buildEchoRequest now).1.bigID = s.bigID) ∧
    ((s.buildEchoRequest now).1.stats = s.stats) ∧
    (msgSeq ((s.buildEchoRequest now).1.buildEchoRequest now2).2 =
      msgSeq (s.buildEchoRequest now).2) ∧
    (msgSeq (s.buildEchoRequest now).2 = s.lastSeq + 1) :=
  ⟨rfl, rfl, rfl, rfl, rfl, rfl, rfl⟩

/-- C2: codec round-trip law.  For every session, encoding an echo request
(payload = 8 big-endian `bigID` bytes followed by 8 big-endian signed
`UnixNano` timestamp bytes) and decoding the resulting bytes as an echo
reply of the same protocol recovers exactly the original `bigID` from
payload bytes 0-7 and a timestamp equal to the original to the nanosecond
from payload bytes 8-15: `preProcessRawPacket` accepts the reply and
computes its RTT as `received - now` with no precision loss.  The
hypotheses are the `uint64` range of `bigID` (its Go type) and the `int64`
range of the timestamp (the range of `UnixNano`). -/
theorem C2_codec_roundTrip (s : SessionState) (meta : RawPacketMeta)
    (now received : Int) (hbig : s.bigID < 2 ^ 64)
    (hlo : -(2 ^ 63) ≤ now) (hhi : now < 2 ^ 63) :
    ∃ e : EchoBody,
      (s.buildEchoRequest now).2.Body = .echo e ∧
      bytesToUint64 (e.Data.take 8) = s.bigID ∧
      bytesToUnixNano (e.Data.drop 8) = now ∧
      s.preProcessRawPacket meta
          (.ok { Typ := if s.isIPv4 then .v4EchoReply else .v6EchoReply
                 Code := 0
                 Body := .echo e }) received =
        .ok (some { TTL := meta.cm.TTL, Src := some meta.cm.Src
                    Len := meta.length, Seq := s.lastSeq + 1
                    Res := .Replied, Time := received - now }) := by
  have h8 : (uint64ToBytes s.bigID).length = 8 := rfl
  have htake : (uint64ToBytes s.bigID ++ unixNanoToBytes now).take 8 =
      uint64ToBytes s.bigID := List.take_left' h8
  have hdrop : (uint64ToBytes s.bigID ++ unixNanoToBytes now).drop 8 =
      unixNanoToBytes now := List.drop_left' h8
  have hdec : bytesToUint64
      ((uint64ToBytes s.bigID ++ unixNanoToBytes now).take 8) = s.bigID := by
    rw [htake, bytesToUint64_uint64ToBytes_of_lt hbig]
  have htst : bytesToUnixNano
      ((uint64ToBytes s.bigID ++ unixNanoToBytes now).drop 8) = now := by
    rw [hdrop, bytesToUnixNano_unixNanoToBytes hlo hhi]
  have hlen : (uint64ToBytes s.bigID ++ unixNanoToBytes now).length = 16 := by
    simp [List.length_append, h8, unixNanoToBytes, int64ToBytes,
      uint64ToBytes]
  refine ⟨{ ID := s.id, Seq := s.lastSeq + 1
            Data := uint64ToBytes s.bigID ++ unixNanoToBytes now },
    rfl, hdec, htst, ?_⟩
  cases hip : s.isIPv4 <;>
    simp [SessionState.preProcessRawPacket, hip, hlen, hdec, htst]

/-- Witness for `C2_codec_roundTrip`: the sample session encoding at
timestamp 1234 and decoding at time 777. -/
theorem C2_codec_roundTrip_witness :
    sampleSession.bigID < 2 ^ 64 ∧ (-(2 ^ 63 : Int) ≤ 1234) ∧
    ((1234 : Int) < 2 ^ 63) ∧
    (∃ e : EchoBody,
      (sampleSession.buildEchoRequest 1234).2.Body = .echo e ∧
      bytesToUint64 (e.Data.take 8) = sampleSession.bigID ∧
      bytesToUnixNano (e.Data.drop 8) = 1234 ∧
      sampleSession.preProcessRawPacket sampleMeta
          (.ok { Typ := if sampleSession.isIPv4 then .v4EchoReply
                        else .v6EchoReply
                 Code := 0
                 Body := .echo e }) 777 =
        .ok (some { TTL := sampleMeta.cm.TTL, Src := some sampleMeta.cm.Src
                    Len := sampleMeta.length, Seq := sampleSession.lastSeq + 1
                    Res := .Replied, Time := 777 - 1234 })) := by
  have h1 : sampleSession.bigID < 2 ^ 64 := by norm_num [sampleSession]
  exact ⟨h1, by norm_num, by norm_num,
    C2_codec_roundTrip sampleSession sampleMeta 1234 777 h1 (by norm_num)
      (by norm_num)⟩

/-- C4: an inbound echo reply whose decoded payload bigID
(`bytesToUint64(body.Data[:8])`) differs from the session's `bigID` is
classified as no round trip (`nil`), so `handleRawPacket` never touches a
correlation slot and never updates statistics for it — regardless of the
reply's sequence number (which is left fully unconstrained here). -/
theorem C4_bigID_mismatch_discard (s : SessionState) (meta : RawPacketMeta)
    (m : Message) (received : Int) (e : EchoBody)
    (hbody : m.Body = .echo e) (hlen : 16 ≤ e.Data.length)
    (hmid : bytesToUint64 (e.Data.take 8) ≠ s.bigID) :
    s.preProcessRawPacket meta (.ok m) received = .ok none ∧
    s.handleRawPacket meta (.ok m) received = s := by
  have hpre : s.preProcessRawPacket meta (.ok m) received = .ok none := by
    obtain ⟨typ, code, body⟩ := m
    simp only at hbody
    subst hbody
    simp only [SessionState.preProcessRawPacket]
    split
    · rfl
    · simp only [hmid, if_neg (by omega : ¬e.Data.length < 16), if_false,
        ite_not]
      split
      · rfl
      · simp [hmid]
  refine ⟨hpre, ?_⟩
  simp [SessionState.handleRawPacket, hpre]

/-- Witness for `C4_bigID_mismatch_discard`: a reply to the sample session
(bigID 99) carrying bigID 7 with a matching sequence number. -/
theorem C4_bigID_mismatch_discard_witness :
    (({ Typ := .v4EchoReply, Code := 0
        Body := .echo { ID := 17, Seq := 1
                        Data := uint64ToBytes 7 ++ uint64ToBytes 0 } } :
        Message).Body =
      .echo { ID := 17, Seq := 1
              Data := uint64ToBytes 7 ++ uint64ToBytes 0 }) ∧
    (16 ≤ (uint64ToBytes 7 ++ uint64ToBytes 0 : List Nat).length) ∧
    (bytesToUint64 ((uint64ToBytes 7 ++ uint64ToBytes 0 : List Nat).take 8) ≠
      sampleSession.bigID) ∧
    (sampleSession.preProcessRawPacket sampleMeta
        (.ok { Typ := .v4EchoReply, Code := 0
               Body := .echo { ID := 17, Seq := 1
                               Data := uint64ToBytes 7 ++ uint64ToBytes 0 } })
        777 = .ok none) ∧
    (sampleSession.handleRawPacket sampleMeta
        (.ok { Typ := .v4EchoReply, Code := 0
               Body := .echo { ID := 17, Seq := 1
                               Data := uint64ToBytes 7 ++ uint64ToBytes 0 } })
        777 = sampleSession) := by
  have h := C4_bigID_mismatch_discard sampleSession sampleMeta
    { Typ := .v4EchoReply, Code := 0
      Body := .echo { ID := 17, Seq := 1
                      Data := uint64ToBytes 7 ++ uint64ToBytes 0 } }
    777
    { ID := 17, Seq := 1, Data := uint64ToBytes 7 ++ uint64ToBytes 0 }
    rfl (by decide) (by decide)
  exact ⟨rfl, by decide, by decide, h.1, h.2⟩

theorem foldl_EchoReplied_rtts :
    ∀ (l : List Nat) (s : StatisticsState),
      (l.foldl StatisticsState.EchoReplied s).rtts = s.rtts ++ l
  | [], s => by simp
  | r :: l, s => by
      simp [foldl_EchoReplied_rtts l, StatisticsState.EchoReplied]

theorem foldl_EchoReplied_max :
    ∀ (l : List Nat) (s : StatisticsState),
      (l.foldl StatisticsState.EchoReplied s).rttsMax = l.foldl max s.rttsMax
  | [], _ => rfl
  | r :: l, s => by
      simp [foldl_EchoReplied_max l, StatisticsState.EchoReplied]

theorem foldl_EchoReplied_min :
    ∀ (l : List Nat) (s : StatisticsState),
      (l.foldl StatisticsState.EchoReplied s).rttsMin = l.foldl min s.rttsMin
  | [], _ => rfl
  | r :: l, s => by
      simp [foldl_EchoReplied_min l, StatisticsState.EchoReplied]

theorem foldl_EchoReplied_sum :
    ∀ (l : List Nat) (s : StatisticsState), s.rttsSum + l.sum < U64 →
      (l.foldl StatisticsState.EchoReplied s).rttsSum = s.rttsSum + l.sum
  | [], s, _ => by simp
  | r :: l, s, h => by
      have hs : s.rttsSum + r < U64 := by
        simp only [List.sum_cons] at h
        omega
      have hmod : (s.rttsSum + r) % U64 = s.rttsSum + r := Nat.mod_eq_of_lt hs
      have ih := foldl_EchoReplied_sum l (s.EchoReplied r)
      simp only [StatisticsState.EchoReplied, hmod, List.sum_cons] at ih ⊢
      rw [List.foldl_cons]
      simp only [StatisticsState.EchoReplied, hmod]
      rw [ih]
      · omega
      · simp only [List.sum_cons] at h
        omega

theorem le_foldl_max : ∀ (l : List Nat) (a : Nat), a ≤ l.foldl max a
  | [], a => le_refl a
  | x :: l, a => le_trans (le_max_left a x) (le_foldl_max l (max a x))

theorem foldl_min_le : ∀ (l : List Nat) (a : Nat), l.foldl min a ≤ a
  | [], a => le_refl a
  | x :: l, a => le_trans (foldl_min_le l (min a x)) (min_le_left a x)

theorem sum_le_length_mul_foldl_max :
    ∀ (l : List Nat) (a : Nat), l.sum ≤ l.length * l.foldl max a
  | [], _ => by simp
  | x :: l, a => by
      simp only [List.sum_cons, List.length_cons, List.foldl_cons]
      have h1 : x ≤ List.foldl max (max a x) l :=
        le_trans (le_max_right a x) (le_foldl_max l _)
      have h2 := sum_le_length_mul_foldl_max l (max a x)
      calc x + l.sum ≤ List.foldl max (max a x) l +
            l.length * List.foldl max (max a x) l := add_le_add h1 h2
        _ = (l.length + 1) * List.foldl max (max a x) l := by ring

theorem length_mul_foldl_min_le_sum :
    ∀ (l : List Nat) (a : Nat), l.length * l.foldl min a ≤ l.sum
  | [], _ => by simp
  | x :: l, a => by
      simp only [List.sum_cons, List.length_cons, List.foldl_cons]
      have h1 : List.foldl min (min a x) l ≤ x :=
        le_trans (foldl_min_le l _) (min_le_right a x)
      have h2 := length_mul_foldl_min_le_sum l (min a x)
      calc (l.length + 1) * List.foldl min (min a x) l =
            List.foldl min (min a x) l +
              l.length * List.foldl min (min a x) l := by ring
        _ ≤ x + l.sum := add_le_add h1 h2

/-- C6 counterexample: the claim "whenever at least one successful reply
has been recorded via `EchoReplied`, `GetRTTMin ≤ GetRTTAvg ≤ GetRTTMax`"
fails as stated, because the `uint64` running RTT sum wraps around: after
two replies of `2^63` nanoseconds each, the sum is `0`, so
`GetRTTAvg = 0` while `GetRTTMin = 2^63 - 1`. -/
theorem C6_rtt_order_counterexample :
    ((NewStatistics.EchoReplied (2 ^ 63)).EchoReplied (2 ^ 63)).rtts ≠ [] ∧
    ((NewStatistics.EchoReplied (2 ^ 63)).EchoReplied (2 ^ 63)).GetRTTMin =
      2 ^ 63 - 1 ∧
    ((NewStatistics.EchoReplied (2 ^ 63)).EchoReplied (2 ^ 63)).GetRTTAvg =
      0 ∧
    ¬ (((NewStatistics.EchoReplied (2 ^ 63)).EchoReplied (2 ^ 63)).GetRTTMin
        ≤ ((NewStatistics.EchoReplied (2 ^ 63)).EchoReplied
          (2 ^ 63)).GetRTTAvg) := by
  decide

/-- C6 (amended): whenever at least one successful reply has been recorded
via `EchoReplied` — provided the recorded RTTs sum to less than `2^64`, so
the `uint64` running sum does not wrap around — the statistics satisfy
`GetRTTMin ≤ GetRTTAvg ≤ GetRTTMax`; and when no reply has been recorded,
`GetRTTMin`, `GetRTTAvg` and `GetRTTMax` all return 0. -/
theorem C6_rtt_order_amended (l : List Nat) (hne : l ≠ [])
    (hsum : l.sum < U64) :
    ((statsAfterReplies l).GetRTTMin ≤ (statsAfterReplies l).GetRTTAvg ∧
      (statsAfterReplies l).GetRTTAvg ≤ (statsAfterReplies l).GetRTTMax) ∧
    (NewStatistics.GetRTTMin = 0 ∧ NewStatistics.GetRTTAvg = 0 ∧
      NewStatistics.GetRTTMax = 0) := by
  have hrtts : (statsAfterReplies l).rtts = l := by
    simpa [NewStatistics] using foldl_EchoReplied_rtts l NewStatistics
  have hmax : (statsAfterReplies l).rttsMax = l.foldl max 0 := by
    simpa [NewStatistics] using foldl_EchoReplied_max l NewStatistics
  have hmin : (statsAfterReplies l).rttsMin = l.foldl min (2 ^ 63 - 1) := by
    simpa [NewStatistics] using foldl_EchoReplied_min l NewStatistics
  have hsum2 : (statsAfterReplies l).rttsSum = l.sum := by
    simpa [NewStatistics] using
      foldl_EchoReplied_sum l NewStatistics (by simpa [NewStatistics])
  have hlpos : 0 < l.length := List.length_pos.mpr hne
  refine ⟨⟨?_, ?_⟩, by decide⟩
  · rw [StatisticsState.GetRTTMin, StatisticsState.GetRTTAvg, hrtts, hmax,
      hmin, hsum2, if_neg (by omega)]
    have h1 : l.length * l.foldl min (2 ^ 63 - 1) ≤ l.sum :=
      length_mul_foldl_min_le_sum l _
    have h2 : l.foldl min (2 ^ 63 - 1) ≤ l.sum / l.length :=
      (Nat.le_div_iff_mul_le hlpos).mpr (by rw [mul_comm]; exact h1)
    exact le_trans (min_le_right _ _) h2
  · rw [StatisticsState.GetRTTMax, StatisticsState.GetRTTAvg, hrtts, hmax,
      hsum2, if_neg (by omega)]
    have h1 : l.sum ≤ l.length * l.foldl max 0 :=
      sum_le_length_mul_foldl_max l 0
    have h2 : l.sum / l.length ≤ (l.length * l.foldl max 0) / l.length :=
      Nat.div_le_div_right h1
    rwa [Nat.mul_div_cancel_left _ hlpos] at h2

/-- Witness for `C6_rtt_order_amended`: a single recorded reply of 5 ns. -/
theorem C6_rtt_order_amended_witness :
    (([5] : List Nat) ≠ []) ∧ (([5] : List Nat).sum < U64) ∧
    ((statsAfterReplies [5]).GetRTTMin ≤ (statsAfterReplies [5]).GetRTTAvg ∧
      (statsAfterReplies [5]).GetRTTAvg ≤
        (statsAfterReplies [5]).GetRTTMax) := by
  have h1 : ([5] : List Nat) ≠ [] := by simp
  have h2 : ([5] : List Nat).sum < U64 := by norm_num [U64]
  exact ⟨h1, h2, (C6_rtt_order_amended [5] h1 h2).1⟩

end Pingo
